import Mathlib

/-
Verification of the ReaPack transactional core against its specification.

The development shallowly embeds the relevant parts of the C++ sources:
  - transaction.cpp  (Transaction::synchronize, fetchIndex, runTasks, commitTasks)
  - archive.cpp      (Archive::import, ImportArchive::importRemote/importPackage)
  - index.cpp        (Index::load validation and version dispatch)
and, where a subsystem is referenced by the sources and the spec but its
implementation file is not part of the corpus (version parsing, the Registry
storage engine, Remote string parsing), models it from the specification text,
marked by a doc comment starting with: Modelled from the spec.
-/

namespace ReaPack

/-! ## Version model

Modelled from the spec: `version.cpp` (the Version / VersionName parser) is not
among the sources; only its unit tests are.  The spec (sections 3 and 4.1)
describes the parser: a version string is split into maximal digit runs (an
alphabetic suffix contributes its embedded digits as further components, so
"1.2pre3" has components 1, 2, 3); parsing fails with "invalid version name"
for 0 or more than 4 components and with "version component overflow" when a
component's numeric prefix exceeds 4 digits; the canonical comparison key is a
64-bit code packing component i at decimal-digit offset 12 - 4*i. -/

/-- Modelled from the spec: accumulator for splitting a character list into its
maximal runs of decimal digits (the numeric components of a version string). -/
def digitRunsAux : List Char → List Char → List (List Char)
  | [], acc => if acc.isEmpty then [] else [acc.reverse]
  | c :: rest, acc =>
    if c.isDigit then digitRunsAux rest (c :: acc)
    else if acc.isEmpty then digitRunsAux rest []
    else acc.reverse :: digitRunsAux rest []

/-- Modelled from the spec: the maximal digit runs of a character list. -/
def digitRuns (cs : List Char) : List (List Char) := digitRunsAux cs []

/-- Numeric value of one digit run. -/
def runVal (run : List Char) : Nat :=
  run.foldl (fun a c => a * 10 + (c.toNat - 48)) 0

/-- Number of numeric components of a version string. -/
def componentCount (s : String) : Nat := (digitRuns s.data).length

/-- Whether some numeric component of a version string has more than 4 digits
(the spec: a component whose numeric prefix exceeds 4 digits overflows). -/
def hasOverflowComponent (s : String) : Bool :=
  (digitRuns s.data).any (fun r => r.length > 4)

/-- Modelled from the spec: parsing a version string into its numeric
components; fails with "invalid version name" for 0 or more than 4 components
and with "version component overflow" for a component of more than 4 digits. -/
def versionParse (s : String) : Except String (List Nat) :=
  let runs := digitRuns s.data
  if runs.length = 0 ∨ runs.length > 4 then Except.error "invalid version name"
  else if runs.any (fun r => r.length > 4) then
    Except.error "version component overflow"
  else Except.ok (runs.map runVal)

/-- Modelled from the spec: the packed 64-bit comparison code; component i
occupies decimal digits (12 - 4*i) down to (12 - 4*i - 3), so the code is the
left-to-right packing of the components padded to 4 slots of 4 digits. -/
def versionCode (comps : List Nat) : Nat :=
  (comps.foldl (fun a c => a * 10000 + c) 0) * 10 ^ (4 * (4 - comps.length))

/-- The packed code computed directly from a version string's digit runs. -/
def codeOf (s : String) : Nat := versionCode ((digitRuns s.data).map runVal)

/-- A parsed version: the surface spelling together with its packed code. -/
structure VersionV where
  name : String
  code : Nat
deriving DecidableEq, Repr

/-- Constructing a version from a string, as the sources do (throwing on an
invalid name); on success the version keeps its spelling and its code. -/
def VersionV.fromString (s : String) : Except String VersionV :=
  match versionParse s with
  | Except.error e => Except.error e
  | Except.ok comps => Except.ok ⟨s, versionCode comps⟩

/-- Version equality: purely on the packed numeric code. -/
def VersionV.eqv (a b : VersionV) : Bool := a.code == b.code

/-- Version strict ordering: purely on the packed numeric code. -/
def VersionV.ltv (a b : VersionV) : Bool := a.code < b.code

/-! ## Package resolution: Transaction::synchronize(const Package *, const InstallOpts &)

Embedding of transaction.cpp lines 86-108.  The Registry entry returned by
getEntry is a value type whose operator bool tests whether the package is
installed; an absent entry carries the default (zero) version code and an unset
pinned flag.  The candidate version computed by Package::lastVersion (whose
implementation is outside the corpus) is passed as a parameter, as are the
file-existence oracle and the candidate's file set. -/

/-- The view of a Registry::Entry used by synchronize: whether an entry exists
(operator bool), its installed version code and its pinned flag.  An absent
entry has version code 0 and pinned false, matching a default Registry::Entry. -/
structure SyncEntry where
  present : Bool
  version : Nat
  pinned : Bool
deriving DecidableEq, Repr

/-- The default entry returned by getEntry for a package that is not installed. -/
def SyncEntry.absent : SyncEntry := ⟨false, 0, false⟩

/-- The data of the candidate Version (latest) used by synchronize: its
VersionName code and its file set. -/
structure CandidateVersion where
  name : Nat
  files : List String
deriving DecidableEq, Repr

/-- The install decision pushed onto m_nextQueue: an InstallTask carrying the
new version and the old registry entry. -/
structure InstallDecision where
  latest : CandidateVersion
  oldEntry : SyncEntry
deriving DecidableEq, Repr

/-- Embedding of Transaction::allFilesExists (transaction.cpp lines 294-302):
true when every file of the list exists on disk. -/
def allFilesExists (fsExists : String → Bool) (files : List String) : Bool :=
  files.all fsExists

/-- Embedding of Transaction::synchronize(const Package *, const InstallOpts &)
(transaction.cpp lines 86-108).  Returns the queued InstallTask, or none when
the package is skipped.  regEntry is the result of m_registry.getEntry(pkg),
latest the result of pkg->lastVersion(opts.bleedingEdge, regEntry.version). -/
def synchronizePkg (regEntry : SyncEntry) (autoInstall : Bool)
    (latest : Option CandidateVersion) (fsExists : String → Bool) :
    Option InstallDecision :=
  if ¬regEntry.present ∧ ¬autoInstall then none
  else
    match latest with
    | none => none
    | some l =>
      if regEntry.version = l.name then
        if allFilesExists fsExists l.files then none
        else some ⟨l, regEntry⟩
      else if regEntry.pinned ∨ l.name < regEntry.version then none
      else some ⟨l, regEntry⟩

/-! ## Index staleness: Transaction::synchronize(const Remote &) and fetchIndex

Embedding of transaction.cpp lines 33, 58-84 and 129-160.  fetchIndex reuses
the on-disk index manifest only when its stale parameter is false and the
manifest's modification time is within STALE_THRESHOLD of now; otherwise it
pushes a FileDownload.  FS::mtime leaves mtime at 0 when the manifest is
absent.  Transaction::synchronize(remote) calls fetchIndex(remote, true, cb)
with the stale argument hardcoded to true (transaction.cpp line 73). -/

/-- Embedding of STALE_THRESHOLD (transaction.cpp line 33): 7 days in seconds. -/
def STALE_THRESHOLD : Int := 7 * 24 * 3600

/-- What fetchIndex decides to do with the on-disk index manifest. -/
inductive FetchAction where
  | loadLocal
  | download
deriving DecidableEq, Repr

/-- Embedding of the cache decision in Transaction::fetchIndex (transaction.cpp
lines 129-160): reuse the local manifest only when not forced stale and the
manifest is newer than now minus STALE_THRESHOLD; mtime is 0 when absent. -/
def fetchIndexAction (stale : Bool) (mtime now : Int) : FetchAction :=
  if ¬stale ∧ mtime > now - STALE_THRESHOLD then FetchAction.loadLocal
  else FetchAction.download

/-- The fetch performed by Transaction::synchronize(const Remote &): it calls
fetchIndex with stale = true (transaction.cpp line 73). -/
def synchronizeRemoteFetch (mtime now : Int) : FetchAction :=
  fetchIndexAction true mtime now

/-! ## Index loading: Index::load (index.cpp lines 35-82)

Embedding of the validation performed on an already-parsed document: the root
element's value must be "index"; the integer version attribute is read into a
variable initialised to 0 (left at 0 when the attribute is missing or not an
integer); a zero value fails with "index version not found"; the switch
dispatches version 1 to loadV1 and everything else to "index version is
unsupported".  The version-1 loader (index_v1.cpp) is outside the corpus and
is a parameter. -/

/-- The parsed document root as Index::load sees it: the root element value and
the integer version attribute (none when missing or not an integer, in which
case TiXmlElement::Attribute leaves the variable at its initial 0). -/
structure XmlRoot where
  value : String
  versionAttr : Option Int
deriving DecidableEq, Repr

/-- Embedding of Index::load (index.cpp lines 35-82) from the point where the
document is parsed; loadV1 is the version-1 loader the switch dispatches to. -/
def indexLoad {α : Type} (loadV1 : XmlRoot → Except String α) (root : XmlRoot) :
    Except String α :=
  if root.value ≠ "index" then Except.error "invalid index"
  else
    let version : Int := match root.versionAttr with
      | some n => n
      | none => 0
    if version = 0 then Except.error "index version not found"
    else if version = 1 then loadV1 root
    else Except.error "index version is unsupported"

/-! ## Archive import: Archive::import, ImportArchive (archive.cpp lines 64-160)

Embedding of the manifest replay loop.  The external collaborators invoked by
the per-line handlers are gathered into an environment record:
Remote::fromString (remote.cpp is outside the corpus, may fail on an invalid
remote description), ArchiveReader::extractFile on the remote's index path
(returns a zlib status code, 0 on success), Index::load of the freshly
extracted index (may fail), and the istream quoted-field extraction of a PACK
line (never throws).  The protected-remote URL preservation is a Config
side effect with no bearing on the replayed lines and is not modelled. -/

/-- The in-memory index tree as the import loop consumes it: its name and, per
(category, package) pair, the list of version names. -/
structure ArcIndex where
  name : String
  pkgs : List (String × String × List String)
deriving DecidableEq, Repr

/-- Embedding of Index::find followed by Package::findVersion: whether the
index holds the named version of the named package of the named category. -/
def ArcIndex.hasVersion (idx : ArcIndex) (cat pkg ver : String) : Bool :=
  idx.pkgs.any (fun e => e.1 = cat ∧ e.2.1 = pkg ∧ e.2.2.contains ver)

/-- External collaborators of the import loop. -/
structure ImportEnv where
  fromString : String → Except String String
  extractIndex : String → Int
  loadIndex : String → Except String ArcIndex
  parsePack : String → String × String × String × Bool

/-- The mutable state threaded through the import loop: the most recently
imported index (ImportArchive::m_lastIndex), the transaction receipt's error
list, the queued installs (version identified by index/category/package/name
plus the pinned flag), and the remotes added to the configuration. -/
structure ImportState where
  lastIndex : Option ArcIndex
  errors : List String
  installs : List (String × String × String × String × Bool)
  remotes : List String
deriving Repr

/-- The state at the start of Archive::import. -/
def ImportState.init : ImportState := ⟨none, [], [], []⟩

/-- Embedding of ReceiptPage::addError via Transaction::receipt: appends one
error message to the receipt. -/
def addErr (st : ImportState) (msg : String) : ImportState :=
  { st with errors := st.errors ++ [msg] }

/-- Embedding of ImportArchive::importRemote (archive.cpp lines 115-133): the
previous index is cleared first, so any failure (invalid remote description,
index extraction error, index load error) leaves no last index; the remote is
added to the configuration before the index is loaded. -/
def importRemote (env : ImportEnv) (st : ImportState) (data : String) :
    ImportState :=
  let st := { st with lastIndex := none }
  match env.fromString data with
  | Except.error e => addErr st e
  | Except.ok remoteName =>
    if env.extractIndex remoteName ≠ 0 then
      addErr st ("Failed to extract index of " ++ remoteName)
    else
      let st := { st with remotes := st.remotes ++ [remoteName] }
      match env.loadIndex remoteName with
      | Except.error e => addErr st e
      | Except.ok idx => { st with lastIndex := some idx }

/-- Embedding of ImportArchive::importPackage (archive.cpp lines 135-160): a
PACK line with no loaded index returns silently (the source comments that the
error was already reported when the repository failed to import); an unknown
category/package/version adds a per-line error; otherwise the install is
queued on the transaction. -/
def importPackage (env : ImportEnv) (st : ImportState) (data : String) :
    ImportState :=
  match st.lastIndex with
  | none => st
  | some idx =>
    let fields := env.parsePack data
    if idx.hasVersion fields.1 fields.2.1 fields.2.2.1 then
      { st with installs :=
          st.installs ++ [(idx.name, fields.1, fields.2.1, fields.2.2.1, fields.2.2.2)] }
    else
      addErr st (idx.name ++ "/" ++ fields.1 ++ "/" ++ fields.2.1 ++ " v" ++
        fields.2.2.1 ++ " cannot be found or is incompatible with your operating system.")

/-- Embedding of the per-line dispatch in Archive::import (archive.cpp lines
86-109): lines of at most 5 characters are skipped silently; otherwise the
first character selects the handler, which receives the line minus its
5-character prefix; any other first character records an Unknown token error
naming the first 4 characters, and the loop continues. -/
def importLine (env : ImportEnv) (st : ImportState) (line : String) :
    ImportState :=
  if line.length ≤ 5 then st
  else
    let data := line.drop 5
    match line.data.head? with
    | some c =>
      if c = 'R' then importRemote env st data
      else if c = 'P' then importPackage env st data
      else addErr st ("Unknown token " ++ line.take 4 ++ " (skipping)")
    | none => st

/-- The whole manifest replay loop of Archive::import. -/
def importToc (env : ImportEnv) (st : ImportState) (lines : List String) :
    ImportState :=
  lines.foldl (importLine env) st

/-- Embedding of Archive::import (archive.cpp lines 74-113): failure to
extract the "toc" manifest entry throws and aborts the whole import; otherwise
every line is replayed and each per-line failure only adds to the receipt. -/
def archiveImport (env : ImportEnv) (toc : Option (List String)) :
    Except String ImportState :=
  match toc with
  | none => Except.error "Cannot locate the table of contents"
  | some lines => Except.ok (importToc env ImportState.init lines)

/-! ## Transaction execution: runTasks and commitTasks (transaction.cpp 223-286)

Embedding of the orchestrator.  The Registry storage engine itself is outside
the corpus; its savepoint/restore/commit surface is modelled from the spec
(section 4.3): savepoint opens a nested checkpoint, restore undoes changes back
to the most recent open checkpoint, commit durably persists everything written
since the outermost checkpoint.  Writes are abstract records (Nat).

Task bodies (task.cpp) are outside the corpus; per the spec (section 4.4-4.5) a
task exposes start (which may probe the registry and may fail, in which case
the task is dropped), and on settling is either committed (performing its
registry writes) or rolled back.  A task reaches its terminal state on the
thread pool; a fast task settles already while being started, a slow one only
by the time the orchestrator's next pool-idle checkpoint is reached.  The
cooperative suspension of runTasks (returning false while the pool is busy and
being re-entered from the pool's onDone hook) is folded into commitTasksRun:
by the time the orchestrator proceeds past a pool-idle checkpoint, every
running task has reached a terminal state and has been committed or rolled
back.  promptObsolete is driven by an external dialog and does nothing when no
obsolete entry was collected; it is not modelled. -/

/-- The Registry as seen through its transactional surface.  Modelled from the
spec (section 4.3): durable rows, pending uncommitted writes, and a stack of
savepoint marks into the pending list. -/
structure RegistryState where
  durable : List Nat
  pending : List Nat
  marks : List Nat
deriving DecidableEq, Repr

/-- Registry::savepoint — opens a nested checkpoint. -/
def RegistryState.savepoint (r : RegistryState) : RegistryState :=
  { r with marks := r.pending.length :: r.marks }

/-- Registry::restore — undoes all writes back to the most recent checkpoint
and closes it. -/
def RegistryState.restore (r : RegistryState) : RegistryState :=
  match r.marks with
  | [] => r
  | m :: ms => { r with pending := r.pending.take m, marks := ms }

/-- Registry::commit — durably persists everything written since the outermost
checkpoint. -/
def RegistryState.commit (r : RegistryState) : RegistryState :=
  ⟨r.durable ++ r.pending, [], []⟩

/-- Pending registry writes, as performed by a task. -/
def RegistryState.pushAll (r : RegistryState) (ws : List Nat) : RegistryState :=
  { r with pending := r.pending ++ ws }

/-- A queued task as the orchestrator sees it: whether Task::start succeeds
(a failing task is dropped), the registry writes probed during start (discarded
by the per-queue restore), the registry writes performed on commit, and whether
the task settles already while being started (fast) or only later on the
thread pool (slow). -/
structure TxTask where
  id : Nat
  startsOk : Bool
  startWrites : List Nat
  commitWrites : List Nat
  fast : Bool
deriving DecidableEq, Repr

/-- How the orchestrator settles a task at a pool-idle checkpoint. -/
inductive TaskOutcome where
  | committedOutcome
  | rolledBack
deriving DecidableEq, Repr

/-- Observable events of one transaction execution.  Queue-scoped events carry
the index of the queue being processed. -/
inductive TxEvent where
  | savepoint (k : Nat)
  | started (k : Nat) (tid : Nat)
  | terminal (k : Nat) (tid : Nat)
  | restored (k : Nat)
  | settle (k : Nat) (tid : Nat) (o : TaskOutcome)
  | registryCommitted
deriving DecidableEq, Repr

/-- A queued host-registration ticket (Transaction::HostTicket): whether it
adds or removes a script registration, and the remote it belongs to. -/
structure HostTicket where
  add : Bool
  remote : String
deriving DecidableEq, Repr

/-- The orchestrator state: the cancelled flag, registry, the queued
host-registration tickets, the pending queue (m_nextQueue), the FIFO of task
queues, the running tasks awaiting settlement (paired with the index of the
queue they were started from), the log of settled tasks with their outcomes,
the performed host registrations, the inhibited remotes, the finished flag and
the event trace. -/
structure TxState where
  isCancelled : Bool
  registry : RegistryState
  regQueue : List HostTicket
  nextQueue : List TxTask
  taskQueues : List (List TxTask)
  runningQueueIdx : Nat
  runningTasks : List TxTask
  settled : List (Nat × TaskOutcome)
  registered : List HostTicket
  inhibited : List String
  finished : Bool
  trace : List TxEvent
deriving Repr

/-- The state of a fresh Transaction holding the given task queues: the
constructor opens one savepoint on the registry (transaction.cpp line 40). -/
def TxState.mkInit (queues : List (List TxTask)) : TxState :=
  { isCancelled := false
    registry := RegistryState.savepoint ⟨[], [], []⟩
    regQueue := []
    nextQueue := []
    taskQueues := queues
    runningQueueIdx := 0
    runningTasks := []
    settled := []
    registered := []
    inhibited := []
    finished := false
    trace := [] }

/-- Embedding of the ThreadPool onAbort handler installed by the Transaction
constructor (transaction.cpp lines 49-52): sets the cancelled flag and swaps
the host-registration queue with an empty one. -/
def abortTx (s : TxState) : TxState :=
  { s with isCancelled := true, regQueue := [] }

/-- Settling one task at a pool-idle checkpoint (the body of the loop in
Transaction::commitTasks, lines 276-283): a slow task has reached its terminal
state by now; a cancelled transaction rolls the task back, otherwise the task
is committed and performs its registry writes. -/
def settleTask (k : Nat) (s : TxState) (t : TxTask) : TxState :=
  let s :=
    if t.fast then s
    else { s with trace := s.trace ++ [TxEvent.terminal k t.id] }
  if s.isCancelled then
    { s with settled := s.settled ++ [(t.id, TaskOutcome.rolledBack)],
             trace := s.trace ++ [TxEvent.settle k t.id TaskOutcome.rolledBack] }
  else
    { s with registry := s.registry.pushAll t.commitWrites,
             settled := s.settled ++ [(t.id, TaskOutcome.committedOutcome)],
             trace := s.trace ++ [TxEvent.settle k t.id TaskOutcome.committedOutcome] }

/-- Embedding of Transaction::commitTasks (transaction.cpp lines 269-286) at a
point where the thread pool has reported idle: every running task is settled
in queue order.  k tags the emitted events with the queue the tasks were
started from. -/
def commitTasksRun (k : Nat) (s : TxState) : TxState :=
  s.runningTasks.foldl (settleTask k) { s with runningTasks := [] }

/-- Starting one task (transaction.cpp lines 244-251): a task whose start
fails is dropped; a started task performs its probing registry writes and
joins the running set; a fast task reaches its terminal state immediately. -/
def startTask (k : Nat) (s : TxState) (t : TxTask) : TxState :=
  if t.startsOk then
    let s := { s with registry := s.registry.pushAll t.startWrites,
                      runningTasks := s.runningTasks ++ [t],
                      trace := s.trace ++ [TxEvent.started k t.id] }
    if t.fast then { s with trace := s.trace ++ [TxEvent.terminal k t.id] }
    else s
  else s

/-- One iteration of the queue loop up to the restore (transaction.cpp lines
240-253): open a savepoint, start every task of the queue, then restore the
savepoint — discarding the probing writes — before waiting for the pool. -/
def processQueue (k : Nat) (s : TxState) (q : List TxTask) : TxState :=
  let s := { s with registry := s.registry.savepoint,
                    trace := s.trace ++ [TxEvent.savepoint k] }
  let s := q.foldl (startTask k) s
  { s with registry := s.registry.restore,
           trace := s.trace ++ [TxEvent.restored k] }

/-- Embedding of Transaction::registerQueued (transaction.cpp lines 311-332):
tickets are processed in order; an add ticket whose remote was inhibited is
popped and processing stops, leaving the rest of the queue untouched. -/
def registerQueuedRun (inhibited : List String) :
    List HostTicket → List HostTicket × List HostTicket
  | [] => ([], [])
  | t :: rest =>
    if t.add ∧ inhibited.contains t.remote then ([], rest)
    else
      let p := registerQueuedRun inhibited rest
      (t :: p.1, p.2)

/-- The tail of Transaction::runTasks once every queue has drained (lines
260-266): the final durable registry commit followed by the queued host
registrations. -/
def finishRun (s : TxState) : TxState :=
  let s := { s with registry := s.registry.commit,
                    trace := s.trace ++ [TxEvent.registryCommitted] }
  let p := registerQueuedRun s.inhibited s.regQueue
  { s with registered := s.registered ++ p.1, regQueue := p.2, finished := true }

/-- The queue loop of Transaction::runTasks (lines 239-258): each queue is
processed (savepoint, starts, restore), then the orchestrator waits for the
pool and settles the queue's tasks, then moves to the next queue; when no
queue remains, the registry commits durably and the host registrations run. -/
def runQueues : Nat → TxState → List (List TxTask) → TxState
  | _, s, [] => finishRun s
  | k, s, q :: rest =>
    let s := processQueue k { s with taskQueues := rest } q
    let s := commitTasksRun k { s with runningQueueIdx := k }
    runQueues (k + 1) s rest

/-- Embedding of one full drive of Transaction::runTasks (lines 223-267),
entered at a pool-idle point: the pending queue is moved into the FIFO, the
tasks left over from a previous suspension are settled, and a cancelled
transaction finishes immediately — before the queue loop and before the final
registry commit. -/
def runTasksDrive (s : TxState) : TxState :=
  let s :=
    if s.nextQueue.isEmpty then s
    else { s with taskQueues := s.taskQueues ++ [s.nextQueue], nextQueue := [] }
  let s := commitTasksRun s.runningQueueIdx s
  if s.isCancelled then { s with finished := true }
  else runQueues 0 s s.taskQueues

/-- The events emitted while settling a running-task list of a cancelled
transaction: a terminal event for each slow task and a rolled-back settle
event for every task. -/
def cancelSettleTrace (k : Nat) : List TxTask → List TxEvent
  | [] => []
  | t :: ts =>
    (if t.fast then ([] : List TxEvent) else [TxEvent.terminal k t.id]) ++
    (TxEvent.settle k t.id TaskOutcome.rolledBack :: cancelSettleTrace k ts)

/-- The events emitted while starting one queue's tasks in order: a started
event per task whose start succeeds, immediately followed by a terminal event
when the task is fast. -/
def startEvtsTrace (k : Nat) : List TxTask → List TxEvent
  | [] => []
  | t :: ts =>
    (if t.startsOk then
      TxEvent.started k t.id ::
        (if t.fast then [TxEvent.terminal k t.id] else [])
     else []) ++ startEvtsTrace k ts

/-- The events emitted while settling one queue's started tasks in an
uncancelled run: a terminal event for each slow task and a committed settle
event for every task. -/
def settleEvtsTrace (k : Nat) : List TxTask → List TxEvent
  | [] => []
  | t :: ts =>
    (if t.fast then ([] : List TxEvent) else [TxEvent.terminal k t.id]) ++
    (TxEvent.settle k t.id TaskOutcome.committedOutcome :: settleEvtsTrace k ts)

/-- The expected event trace of processing and settling one queue. -/
def queueTrace (k : Nat) (q : List TxTask) : List TxEvent :=
  TxEvent.savepoint k ::
    (startEvtsTrace k q ++
      (TxEvent.restored k ::
        settleEvtsTrace k (q.filter (fun t => t.startsOk))))

/-- The expected event trace of the queue loop: all queue segments followed by
the final durable registry commit. -/
def queuesTrace : Nat → List (List TxTask) → List TxEvent
  | _, [] => [TxEvent.registryCommitted]
  | k, q :: rest => queueTrace k q ++ queuesTrace (k + 1) rest

/-- The queue segments alone, without the final registry commit event. -/
def segsTrace : Nat → List (List TxTask) → List TxEvent
  | _, [] => []
  | k, q :: rest => queueTrace k q ++ segsTrace (k + 1) rest

/-- The queue index an event belongs to, if any. -/
def evQueue : TxEvent → Option Nat
  | TxEvent.savepoint k => some k
  | TxEvent.started k _ => some k
  | TxEvent.terminal k _ => some k
  | TxEvent.restored k => some k
  | TxEvent.settle k _ _ => some k
  | TxEvent.registryCommitted => none

/-- Every event satisfying Q occurs strictly after every event satisfying P. -/
def eventBefore (tr : List TxEvent) (P Q : TxEvent → Prop) : Prop :=
  ∀ (i j : Nat) (ei ej : TxEvent),
    tr[i]? = some ei → tr[j]? = some ej → Q ei → P ej → j < i

/-- Formalization of claim C5 as stated: in a run from a fresh transaction
holding the given queues, the resolution of queue k's savepoint — its restore,
or proceeding to the next queue by opening savepoint k+1 — happens only after
every terminal event of queue k's tasks. -/
def savepointResolvedAfterSettle (queues : List (List TxTask)) : Prop :=
  ∀ k tid : Nat,
    eventBefore (runTasksDrive (TxState.mkInit queues)).trace
      (fun e => e = TxEvent.terminal k tid)
      (fun e => e = TxEvent.restored k ∨ e = TxEvent.savepoint (k + 1))

/-! ## Theorems -/

/-- C2: for every package with an existing Registry entry whose pinned flag is
set, synchronize never enqueues an InstallTask for a version strictly newer
than the installed version, whatever candidate the index offers. -/
theorem pinned_entry_never_upgraded (e : SyncEntry) (autoInstall : Bool)
    (latest : Option CandidateVersion) (fs : String → Bool) (d : InstallDecision)
    (hp : e.present = true) (hpin : e.pinned = true)
    (h : synchronizePkg e autoInstall latest fs = some d) :
    ¬ e.version < d.latest.name := by
  unfold synchronizePkg at h
  match latest with
  | none => simp [hp] at h
  | some l =>
    by_cases hv : e.version = l.name
    · by_cases hf : allFilesExists fs l.files = true
      · simp [hp, hv, hf] at h
      · simp [hp, hv, hf] at h
        subst h
        show ¬ e.version < l.name
        omega
    · simp [hp, hv, hpin] at h

/-- Witness for C2 at a concrete pinned entry whose candidate version equals
the installed one with a missing file: the decision reinstalls, and it is not
an upgrade. -/
theorem pinned_entry_never_upgraded_witness :
    synchronizePkg ⟨true, 5, true⟩ false (some ⟨5, ["f"]⟩) (fun _ => false) =
      some ⟨⟨5, ["f"]⟩, ⟨true, 5, true⟩⟩ ∧
    ¬ (5 : Nat) < 5 :=
  ⟨rfl, pinned_entry_never_upgraded ⟨true, 5, true⟩ false (some ⟨5, ["f"]⟩)
    (fun _ => false) ⟨⟨5, ["f"]⟩, ⟨true, 5, true⟩⟩ rfl rfl rfl⟩

/-- C3: for a package installed at version V whose candidate is also V,
synchronize enqueues nothing when every file of V exists, and enqueues an
InstallTask reinstalling V when at least one file is missing. -/
theorem installed_version_reinstall (e : SyncEntry) (autoInstall : Bool)
    (l : CandidateVersion) (fs : String → Bool)
    (hp : e.present = true) (hv : e.version = l.name) :
    (allFilesExists fs l.files = true →
      synchronizePkg e autoInstall (some l) fs = none) ∧
    (allFilesExists fs l.files = false →
      synchronizePkg e autoInstall (some l) fs = some ⟨l, e⟩) := by
  constructor
  · intro hf
    simp [synchronizePkg, hp, hv, hf]
  · intro hf
    simp [synchronizePkg, hp, hv, hf]

/-- Witness for C3 at a concrete entry installed at version 5 with one file:
nothing is enqueued when the file exists, a reinstall of 5 when it is missing. -/
theorem installed_version_reinstall_witness :
    synchronizePkg ⟨true, 5, false⟩ true (some ⟨5, ["f"]⟩) (fun _ => true) = none ∧
    synchronizePkg ⟨true, 5, false⟩ true (some ⟨5, ["f"]⟩) (fun _ => false) =
      some ⟨⟨5, ["f"]⟩, ⟨true, 5, false⟩⟩ :=
  ⟨(installed_version_reinstall ⟨true, 5, false⟩ true ⟨5, ["f"]⟩ (fun _ => true)
      rfl rfl).1 rfl,
   (installed_version_reinstall ⟨true, 5, false⟩ true ⟨5, ["f"]⟩ (fun _ => false)
      rfl rfl).2 rfl⟩

/-- C4 counterexample: the claim says the fetch performed by
Transaction::synchronize(remote) reuses an on-disk manifest newer than 7 days;
but synchronize hardcodes the stale argument of fetchIndex to true
(transaction.cpp line 73), so even a manifest whose modification time equals
now is re-downloaded. -/
theorem synchronize_always_downloads_cex :
    ¬ ((1000000 : Int) > 1000000 - STALE_THRESHOLD →
       synchronizeRemoteFetch 1000000 1000000 = FetchAction.loadLocal) := by
  intro h
  have hc := h (by decide)
  exact absurd hc (by decide)

/-- C4 amended: Transaction::synchronize(remote) always requests a forced
refresh, so its fetch always downloads; the staleness threshold lives in
fetchIndex, which reuses the on-disk manifest exactly when not forced stale
and the manifest's modification time exceeds now minus 7*24*3600 seconds
(an absent manifest has modification time 0). -/
theorem fetch_staleness_threshold (mtime now : Int) :
    synchronizeRemoteFetch mtime now = FetchAction.download ∧
    (fetchIndexAction false mtime now = FetchAction.loadLocal ↔
      mtime > now - STALE_THRESHOLD) := by
  constructor
  · simp [synchronizeRemoteFetch, fetchIndexAction]
  · by_cases h : mtime > now - STALE_THRESHOLD <;>
      simp [fetchIndexAction, h]

/-- C7: version comparison and equality depend only on the packed code, so
equal codes mean equal versions regardless of spelling: the codes of "5.05"
and "5.5" coincide, "5.5" packs below "5.50", "1.2pre3" encodes identically to
"1.2.3", "1.2.3.4" packs below "1.2.4", and "1.2.3" packs to 1000200030000. -/
theorem version_code_comparison :
    codeOf "5.05" = codeOf "5.5" ∧
    codeOf "5.5" < codeOf "5.50" ∧
    codeOf "1.2pre3" = codeOf "1.2.3" ∧
    codeOf "1.2.3.4" < codeOf "1.2.4" ∧
    codeOf "1.2.3" = 1000200030000 ∧
    VersionV.fromString "1.2pre3" = Except.ok ⟨"1.2pre3", 1000200030000⟩ ∧
    (∀ a b : VersionV, VersionV.eqv a b = true ↔ a.code = b.code) ∧
    (∀ a b : VersionV, VersionV.ltv a b = true ↔ a.code < b.code) := by
  refine ⟨by decide, by decide, by decide, by decide, by decide, rfl,
    fun a b => ?_, fun a b => ?_⟩
  · simp [VersionV.eqv]
  · simp [VersionV.ltv]

/-- C8: parsing fails with "invalid version name" for 0 or at least 5
components, fails with "version component overflow" when a component has more
than 4 digits, and succeeds on 1 to 4 components of at most 4 digits each. -/
theorem version_parse_contract (s : String) :
    (componentCount s = 0 ∨ componentCount s ≥ 5 →
      versionParse s = Except.error "invalid version name") ∧
    (1 ≤ componentCount s → componentCount s ≤ 4 → hasOverflowComponent s = true →
      versionParse s = Except.error "version component overflow") ∧
    (1 ≤ componentCount s → componentCount s ≤ 4 → hasOverflowComponent s = false →
      versionParse s = Except.ok ((digitRuns s.data).map runVal)) := by
  unfold versionParse componentCount hasOverflowComponent
  refine ⟨fun h => ?_, fun h1 h4 hov => ?_, fun h1 h4 hov => ?_⟩
  · rw [if_pos]
    omega
  · rw [if_neg (by omega), if_pos hov]
  · rw [if_neg (by omega), if_neg (by rw [hov]; exact Bool.false_ne_true)]

/-- Witness for C8: "hello" has 0 components, "1.2.3.4.5" has 5, "12345.1" has
a 5-digit component, and "1.2" parses to its two components. -/
theorem version_parse_contract_witness :
    versionParse "hello" = Except.error "invalid version name" ∧
    versionParse "1.2.3.4.5" = Except.error "invalid version name" ∧
    versionParse "12345.1" = Except.error "version component overflow" ∧
    versionParse "1.2" = Except.ok ((digitRuns "1.2".data).map runVal) :=
  ⟨(version_parse_contract "hello").1 (by decide),
   (version_parse_contract "1.2.3.4.5").1 (by decide),
   (version_parse_contract "12345.1").2.1 (by decide) (by decide) (by decide),
   (version_parse_contract "1.2").2.2 (by decide) (by decide) (by decide)⟩

/-- C9 counterexample: the claim says any version attribute value other than 1
fails with "index version is unsupported", but a document with version
attribute 0 fails with "index version not found" instead, because the value is
read into a variable initialised to 0 and tested for zero first. -/
theorem index_load_version_zero_cex :
    indexLoad (fun _ => Except.ok 0) ⟨"index", some 0⟩ =
      Except.error "index version not found" ∧
    "index version not found" ≠ "index version is unsupported" := by
  constructor
  · rfl
  · decide

/-- C9 amended: a root element other than "index" fails with "invalid index";
a missing version attribute, or a version attribute of value 0, fails with
"index version not found"; any other value than 1 fails with "index version is
unsupported"; value 1 dispatches to the version-1 loader. -/
theorem index_load_validation {α : Type} (loadV1 : XmlRoot → Except String α)
    (root : XmlRoot) :
    (root.value ≠ "index" → indexLoad loadV1 root = Except.error "invalid index") ∧
    (root.value = "index" → root.versionAttr = none ∨ root.versionAttr = some 0 →
      indexLoad loadV1 root = Except.error "index version not found") ∧
    (∀ v : Int, root.value = "index" → root.versionAttr = some v → v ≠ 0 → v ≠ 1 →
      indexLoad loadV1 root = Except.error "index version is unsupported") ∧
    (root.value = "index" → root.versionAttr = some 1 →
      indexLoad loadV1 root = loadV1 root) := by
  refine ⟨fun h => ?_, fun h ha => ?_, fun v h ha h0 h1 => ?_, fun h ha => ?_⟩
  · simp [indexLoad, h]
  · rcases ha with ha | ha <;> simp [indexLoad, h, ha]
  · simp [indexLoad, h, ha, h0, h1]
  · simp [indexLoad, h, ha]

/-- Witness for C9 amended at concrete documents: a "notindex" root, a missing
attribute, a version-2 attribute, and a version-1 attribute with a loader
returning 7. -/
theorem index_load_validation_witness :
    indexLoad (fun _ => Except.ok 7) ⟨"notindex", some 1⟩ =
      Except.error "invalid index" ∧
    indexLoad (fun _ => Except.ok 7) ⟨"index", none⟩ =
      Except.error "index version not found" ∧
    indexLoad (fun _ => Except.ok 7) ⟨"index", some 2⟩ =
      Except.error "index version is unsupported" ∧
    indexLoad (fun _ => Except.ok 7) ⟨"index", some 1⟩ = Except.ok 7 :=
  ⟨(index_load_validation (fun _ => Except.ok 7) ⟨"notindex", some 1⟩).1
      (by decide),
   (index_load_validation (fun _ => Except.ok 7) ⟨"index", none⟩).2.1 rfl
      (Or.inl rfl),
   (index_load_validation (fun _ => Except.ok 7) ⟨"index", some 2⟩).2.2.1 2 rfl
      rfl (by decide) (by decide),
   (index_load_validation (fun _ => Except.ok 7) ⟨"index", some 1⟩).2.2.2 rfl rfl⟩

/-- A concrete import environment used by closed counterexamples and
witnesses: every remote description parses to itself, index extraction always
succeeds, every index loads with no package, and every PACK line parses to
fixed fields. -/
def sampleImportEnv : ImportEnv :=
  ⟨fun s => Except.ok s, fun _ => 0, fun n => Except.ok ⟨n, []⟩,
   fun _ => ("a", "b", "1", false)⟩

/-- C10: a manifest line of at most 5 characters is skipped silently; on a
longer line only the first character selects the directive, so two long lines
with the same first character and the same text after the 5-character prefix
are handled identically; first character R dispatches to importRemote, P to
importPackage, and anything else records an Unknown token error naming the
first 4 characters while the import continues. -/
theorem toc_line_dispatch (env : ImportEnv) (st : ImportState) :
    (∀ line : String, line.length ≤ 5 → importLine env st line = st) ∧
    (∀ l1 l2 : String, 5 < l1.length → 5 < l2.length →
      l1.data.head? = l2.data.head? →
      (l1.data.head? = some 'R' ∨ l1.data.head? = some 'P') →
      l1.drop 5 = l2.drop 5 → importLine env st l1 = importLine env st l2) ∧
    (∀ line : String, 5 < line.length → line.data.head? = some 'R' →
      importLine env st line = importRemote env st (line.drop 5)) ∧
    (∀ line : String, 5 < line.length → line.data.head? = some 'P' →
      importLine env st line = importPackage env st (line.drop 5)) ∧
    (∀ (line : String) (c : Char), 5 < line.length → line.data.head? = some c →
      c ≠ 'R' → c ≠ 'P' →
      importLine env st line =
        addErr st ("Unknown token " ++ line.take 4 ++ " (skipping)")) := by
  have hR : ∀ line : String, 5 < line.length → line.data.head? = some 'R' →
      importLine env st line = importRemote env st (line.drop 5) := by
    intro line hl hh
    unfold importLine
    rw [if_neg (by omega), hh]
    simp
  have hP : ∀ line : String, 5 < line.length → line.data.head? = some 'P' →
      importLine env st line = importPackage env st (line.drop 5) := by
    intro line hl hh
    unfold importLine
    rw [if_neg (by omega), hh]
    simp
  have hO : ∀ (line : String) (c : Char), 5 < line.length →
      line.data.head? = some c → c ≠ 'R' → c ≠ 'P' →
      importLine env st line =
        addErr st ("Unknown token " ++ line.take 4 ++ " (skipping)") := by
    intro line c hl hh hcR hcP
    unfold importLine
    rw [if_neg (by omega), hh]
    simp [hcR, hcP]
  refine ⟨fun line hl => ?_, fun l1 l2 h1 h2 hh hrp hd => ?_, hR, hP, hO⟩
  · unfold importLine
    rw [if_pos hl]
  · rcases hrp with hc | hc
    · rw [hR l1 h1 hc, hR l2 h2 (hh ▸ hc), hd]
    · rw [hP l1 h1 hc, hP l2 h2 (hh ▸ hc), hd]

/-- Witness for C10 at concrete lines: "PACK " is 5 characters long and
skipped; "REPOXr1" and "REPOYr1" differ inside the 5-character prefix yet are
handled identically; an R line dispatches to importRemote, a P line to
importPackage, and "XXXXXjunk" records an Unknown token error. -/
theorem toc_line_dispatch_witness :
    importLine sampleImportEnv ImportState.init "PACK " = ImportState.init ∧
    importLine sampleImportEnv ImportState.init "REPOXr1" =
      importLine sampleImportEnv ImportState.init "REPOYr1" ∧
    importLine sampleImportEnv ImportState.init "REPO r1" =
      importRemote sampleImportEnv ImportState.init "r1" ∧
    importLine sampleImportEnv ImportState.init "PACK d1" =
      importPackage sampleImportEnv ImportState.init "d1" ∧
    importLine sampleImportEnv ImportState.init "XXXXXjunk" =
      addErr ImportState.init ("Unknown token " ++ "XXXX" ++ " (skipping)") :=
  ⟨(toc_line_dispatch sampleImportEnv ImportState.init).1 "PACK " (by decide),
   (toc_line_dispatch sampleImportEnv ImportState.init).2.1 "REPOXr1" "REPOYr1"
     (by decide) (by decide) (by decide) (Or.inl (by decide)) (by decide),
   (toc_line_dispatch sampleImportEnv ImportState.init).2.2.1 "REPO r1"
     (by decide) (by decide),
   (toc_line_dispatch sampleImportEnv ImportState.init).2.2.2.1 "PACK d1"
     (by decide) (by decide),
   (toc_line_dispatch sampleImportEnv ImportState.init).2.2.2.2 "XXXXXjunk" 'X'
     (by decide) (by decide) (by decide) (by decide)⟩

/-- C6 counterexample: the claim says a PACK line preceding any REPO line is
reported as a per-line error on the receipt; replaying a manifest consisting
of exactly one such PACK line (longer than 5 characters, first character P, no
index loaded yet) leaves the receipt empty — the line is skipped silently
(archive.cpp lines 137-140 return without reporting when no index is loaded). -/
theorem import_pack_before_repo_cex :
    5 < ("PACK a b 1 0" : String).length ∧
    ("PACK a b 1 0" : String).data.head? = some 'P' ∧
    (importToc sampleImportEnv ImportState.init ["PACK a b 1 0"]).errors = [] ∧
    (importToc sampleImportEnv ImportState.init ["PACK a b 1 0"]).installs = [] := by
  refine ⟨by decide, by decide, ?_, ?_⟩ <;> rfl

/-- C6 amended: a PACK line at a point where no index is loaded (before any
REPO line, or after a REPO line that failed to import) is skipped silently
with no receipt error; a PACK line referencing a category/package/version
absent from the loaded index adds exactly one per-line error and queues no
install; the import replays every following line regardless of per-line
failures; only failing to locate the toc manifest entry aborts the import. -/
theorem import_line_error_handling (env : ImportEnv) (st : ImportState) :
    (∀ line : String, st.lastIndex = none → 5 < line.length →
      line.data.head? = some 'P' → importLine env st line = st) ∧
    (∀ (line : String) (idx : ArcIndex), st.lastIndex = some idx →
      5 < line.length → line.data.head? = some 'P' →
      idx.hasVersion (env.parsePack (line.drop 5)).1
        (env.parsePack (line.drop 5)).2.1
        (env.parsePack (line.drop 5)).2.2.1 = false →
      ∃ e : String, importLine env st line = addErr st e) ∧
    (∀ (l : String) (ls : List String),
      importToc env st (l :: ls) = importToc env (importLine env st l) ls) ∧
    (archiveImport env none = Except.error "Cannot locate the table of contents") ∧
    (∀ lines : List String, archiveImport env (some lines) =
      Except.ok (importToc env ImportState.init lines)) := by
  refine ⟨fun line hn hl hh => ?_, fun line idx hi hl hh hmiss => ?_,
    fun l ls => rfl, rfl, fun lines => rfl⟩
  · unfold importLine
    rw [if_neg (by omega), hh]
    simp [importPackage, hn]
  · have hstep : importLine env st line =
        addErr st (idx.name ++ "/" ++ (env.parsePack (line.drop 5)).1 ++ "/" ++
          (env.parsePack (line.drop 5)).2.1 ++ " v" ++
          (env.parsePack (line.drop 5)).2.2.1 ++
          " cannot be found or is incompatible with your operating system.") := by
      unfold importLine
      rw [if_neg (by omega), hh]
      simp [importPackage, hi, hmiss]
    exact ⟨_, hstep⟩

/-- Witness for C6 amended: a concrete PACK line with no index loaded is a
no-op; with an index loaded that lacks the referenced version it adds one
error; a toc with that line still replays the remaining lines; a missing toc
aborts. -/
theorem import_line_error_handling_witness :
    importLine sampleImportEnv ImportState.init "PACK a b 1 0" =
      ImportState.init ∧
    (∃ e : String,
      importLine sampleImportEnv
          { ImportState.init with lastIndex := some ⟨"r", []⟩ } "PACK a b 1 0" =
        addErr { ImportState.init with lastIndex := some ⟨"r", []⟩ } e) ∧
    importToc sampleImportEnv ImportState.init ["PACK a b 1 0", "REPO r"] =
      importToc sampleImportEnv
        (importLine sampleImportEnv ImportState.init "PACK a b 1 0") ["REPO r"] ∧
    archiveImport sampleImportEnv none =
      Except.error "Cannot locate the table of contents" :=
  ⟨(import_line_error_handling sampleImportEnv ImportState.init).1
      "PACK a b 1 0" rfl (by decide) (by decide),
   (import_line_error_handling sampleImportEnv
        { ImportState.init with lastIndex := some ⟨"r", []⟩ }).2.1
      "PACK a b 1 0" ⟨"r", []⟩ rfl (by decide) (by decide) (by decide),
   (import_line_error_handling sampleImportEnv ImportState.init).2.2.1
      "PACK a b 1 0" ["REPO r"],
   (import_line_error_handling sampleImportEnv ImportState.init).2.2.2.1⟩


/-- Helper: settling one task of a cancelled transaction records a rollback
and performs no registry write. -/
theorem settleTask_cancelled (k : Nat) (s : TxState) (t : TxTask)
    (h : s.isCancelled = true) :
    settleTask k s t = { s with
      settled := s.settled ++ [(t.id, TaskOutcome.rolledBack)]
      trace := s.trace ++ ((if t.fast then ([] : List TxEvent)
        else [TxEvent.terminal k t.id]) ++
        [TxEvent.settle k t.id TaskOutcome.rolledBack]) } := by
  unfold settleTask
  by_cases hf : t.fast <;> simp [hf, h]

/-- Helper: settling a task list of a cancelled transaction rolls back every
task and leaves every other field — the registry in particular — unchanged. -/
theorem foldl_settleTask_cancelled (k : Nat) (ts : List TxTask) (s : TxState)
    (h : s.isCancelled = true) :
    ts.foldl (settleTask k) s = { s with
      settled := s.settled ++ ts.map (fun t => (t.id, TaskOutcome.rolledBack))
      trace := s.trace ++ cancelSettleTrace k ts } := by
  induction ts generalizing s with
  | nil => simp [cancelSettleTrace]
  | cons t ts ih =>
    rw [List.foldl_cons, settleTask_cancelled k s t h, ih]
    · simp [cancelSettleTrace]
    · exact h

/-- Helper: a pool-idle checkpoint of a cancelled transaction rolls back every
running task and keeps the registry unchanged. -/
theorem commitTasksRun_cancelled (k : Nat) (s : TxState)
    (h : s.isCancelled = true) :
    commitTasksRun k s = { s with
      runningTasks := []
      settled := s.settled ++
        s.runningTasks.map (fun t => (t.id, TaskOutcome.rolledBack))
      trace := s.trace ++ cancelSettleTrace k s.runningTasks } := by
  unfold commitTasksRun
  rw [foldl_settleTask_cancelled]
  exact h

/-- Helper: the settle events of a cancelled transaction never include the
final durable registry commit. -/
theorem registryCommitted_not_in_cancelSettleTrace (k : Nat) (ts : List TxTask) :
    TxEvent.registryCommitted ∉ cancelSettleTrace k ts := by
  induction ts with
  | nil => simp [cancelSettleTrace]
  | cons t ts ih =>
    by_cases hf : t.fast <;> simp [cancelSettleTrace, hf, ih]

/-- C1: cancelling a Transaction (thread-pool abort) after any number of tasks
have been queued or started leaves the Registry untouched — in particular no
write becomes durable and the final durable commit never happens — clears the
queued host-registration tickets, performs no host registration, rolls back
every task that settles afterwards, and finishes. -/
theorem cancelled_transaction_rolls_back (s : TxState) :
    (runTasksDrive (abortTx s)).registry = s.registry ∧
    (runTasksDrive (abortTx s)).registry.durable = s.registry.durable ∧
    (runTasksDrive (abortTx s)).regQueue = [] ∧
    (runTasksDrive (abortTx s)).registered = s.registered ∧
    (runTasksDrive (abortTx s)).finished = true ∧
    (runTasksDrive (abortTx s)).settled =
      s.settled ++ s.runningTasks.map (fun t => (t.id, TaskOutcome.rolledBack)) ∧
    TxEvent.registryCommitted ∉
      (runTasksDrive (abortTx s)).trace.drop s.trace.length := by
  have hrun : runTasksDrive (abortTx s) =
      { (if s.nextQueue.isEmpty then abortTx s
         else { abortTx s with taskQueues := s.taskQueues ++ [s.nextQueue]
                               nextQueue := [] }) with
        runningTasks := []
        settled := s.settled ++
          s.runningTasks.map (fun t => (t.id, TaskOutcome.rolledBack))
        trace := s.trace ++ cancelSettleTrace s.runningQueueIdx s.runningTasks
        finished := true } := by
    unfold runTasksDrive
    by_cases hq : s.nextQueue.isEmpty
    · simp only [abortTx, hq, if_true]
      rw [commitTasksRun_cancelled _ _ rfl]
      simp [abortTx, hq]
    · simp only [abortTx, hq, if_false]
      rw [commitTasksRun_cancelled _ _ rfl]
      simp [abortTx, hq]
  rw [hrun]
  by_cases hq : s.nextQueue.isEmpty <;>
    simp [abortTx, hq, List.drop_left, registryCommitted_not_in_cancelSettleTrace]


/-! ## Lemmas about uncancelled runs and the event trace -/

theorem eventBefore_of_split (X Y : List TxEvent) (P Q : TxEvent → Prop)
    (hX : ∀ e ∈ X, ¬ Q e) (hY : ∀ e ∈ Y, ¬ P e) :
    eventBefore (X ++ Y) P Q := by
  intro i j ei ej hi hj hq hp
  have hiX : X.length ≤ i := by
    by_contra hlt
    push_neg at hlt
    rw [List.getElem?_append_left hlt] at hi
    exact hX ei (List.getElem?_mem hi) hq
  have hjX : j < X.length := by
    by_contra hge
    push_neg at hge
    rw [List.getElem?_append_right hge] at hj
    exact hY ej (List.getElem?_mem hj) hp
  omega

theorem eventBefore_of_lift (X Y : List TxEvent) (P Q : TxEvent → Prop)
    (hY : eventBefore Y P Q)
    (hXP : ∀ e ∈ X, ¬ P e) (hXQ : ∀ e ∈ X, ¬ Q e) :
    eventBefore (X ++ Y) P Q := by
  intro i j ei ej hi hj hq hp
  have hiX : X.length ≤ i := by
    by_contra hlt
    push_neg at hlt
    rw [List.getElem?_append_left hlt] at hi
    exact hXQ ei (List.getElem?_mem hi) hq
  have hjX : X.length ≤ j := by
    by_contra hlt
    push_neg at hlt
    rw [List.getElem?_append_left hlt] at hj
    exact hXP ej (List.getElem?_mem hj) hp
  rw [List.getElem?_append_right hiX] at hi
  rw [List.getElem?_append_right hjX] at hj
  have := hY _ _ _ _ hi hj hq hp
  omega

theorem mem_startEvtsTrace (k : Nat) (q : List TxTask) (e : TxEvent)
    (h : e ∈ startEvtsTrace k q) :
    (∃ tid, e = TxEvent.started k tid) ∨ (∃ tid, e = TxEvent.terminal k tid) := by
  induction q with
  | nil => simp [startEvtsTrace] at h
  | cons t ts ih =>
    rw [startEvtsTrace, List.mem_append] at h
    rcases h with h | h
    · by_cases ho : t.startsOk <;> by_cases hf : t.fast <;>
        simp [ho, hf] at h
      · rcases h with h | h
        · exact Or.inl ⟨t.id, h⟩
        · exact Or.inr ⟨t.id, h⟩
      · exact Or.inl ⟨t.id, h⟩
    · exact ih h

theorem mem_settleEvtsTrace (k : Nat) (ts : List TxTask) (e : TxEvent)
    (h : e ∈ settleEvtsTrace k ts) :
    (∃ tid, e = TxEvent.terminal k tid) ∨
    (∃ tid o, e = TxEvent.settle k tid o) := by
  induction ts with
  | nil => simp [settleEvtsTrace] at h
  | cons t ts ih =>
    rw [settleEvtsTrace, List.mem_append, List.mem_cons] at h
    rcases h with h | h | h
    · by_cases hf : t.fast <;> simp [hf] at h
      exact Or.inl ⟨t.id, h⟩
    · exact Or.inr ⟨t.id, TaskOutcome.committedOutcome, h⟩
    · exact ih h

theorem evQueue_of_mem_queueTrace (k : Nat) (q : List TxTask) (e : TxEvent)
    (h : e ∈ queueTrace k q) : evQueue e = some k := by
  rw [queueTrace, List.mem_cons, List.mem_append, List.mem_cons] at h
  rcases h with h | h | h | h
  · subst h; rfl
  · rcases mem_startEvtsTrace k q e h with ⟨tid, h⟩ | ⟨tid, h⟩ <;> subst h <;> rfl
  · subst h; rfl
  · rcases mem_settleEvtsTrace _ _ _ h with ⟨tid, h⟩ | ⟨tid, o, h⟩ <;>
      subst h <;> rfl

theorem evQueue_of_mem_segsTrace (rest : List (List TxTask)) :
    ∀ (k : Nat) (e : TxEvent), e ∈ segsTrace k rest →
      ∃ k2, k ≤ k2 ∧ evQueue e = some k2 := by
  induction rest with
  | nil => intro k e h; simp [segsTrace] at h
  | cons q rest ih =>
    intro k e h
    rw [segsTrace, List.mem_append] at h
    rcases h with h | h
    · exact ⟨k, Nat.le_refl k, evQueue_of_mem_queueTrace k q e h⟩
    · obtain ⟨k2, hk2, he⟩ := ih (k + 1) e h
      exact ⟨k2, by omega, he⟩

theorem queuesTrace_cons (k : Nat) (q : List TxTask) (rest : List (List TxTask)) :
    queuesTrace k (q :: rest) = queueTrace k q ++ queuesTrace (k + 1) rest := rfl

theorem queuesTrace_eq_segs (rest : List (List TxTask)) :
    ∀ k : Nat, queuesTrace k rest =
      segsTrace k rest ++ [TxEvent.registryCommitted] := by
  induction rest with
  | nil => intro k; rfl
  | cons q rest ih =>
    intro k
    rw [queuesTrace_cons, ih (k + 1)]
    simp [segsTrace]

theorem foldl_startTask_trace (k : Nat) (q : List TxTask) :
    ∀ s : TxState,
      (q.foldl (startTask k) s).trace = s.trace ++ startEvtsTrace k q := by
  induction q with
  | nil => intro s; simp [startEvtsTrace]
  | cons t ts ih =>
    intro s
    rw [List.foldl_cons, ih]
    unfold startTask
    by_cases ho : t.startsOk <;> by_cases hf : t.fast <;>
      simp [ho, hf, startEvtsTrace]

theorem foldl_startTask_running (k : Nat) (q : List TxTask) :
    ∀ s : TxState,
      (q.foldl (startTask k) s).runningTasks =
        s.runningTasks ++ q.filter (fun t => t.startsOk) := by
  induction q with
  | nil => intro s; simp
  | cons t ts ih =>
    intro s
    rw [List.foldl_cons, ih]
    unfold startTask
    by_cases ho : t.startsOk <;> by_cases hf : t.fast <;>
      simp [ho, hf, List.filter_cons]

theorem foldl_startTask_isCancelled (k : Nat) (q : List TxTask) :
    ∀ s : TxState,
      (q.foldl (startTask k) s).isCancelled = s.isCancelled := by
  induction q with
  | nil => intro s; rfl
  | cons t ts ih =>
    intro s
    rw [List.foldl_cons, ih]
    unfold startTask
    by_cases ho : t.startsOk <;> by_cases hf : t.fast <;> simp [ho, hf]

theorem settleTask_uncancelled (k : Nat) (s : TxState) (t : TxTask)
    (h : s.isCancelled = false) :
    settleTask k s t = { s with
      registry := s.registry.pushAll t.commitWrites
      settled := s.settled ++ [(t.id, TaskOutcome.committedOutcome)]
      trace := s.trace ++ ((if t.fast then ([] : List TxEvent)
        else [TxEvent.terminal k t.id]) ++
        [TxEvent.settle k t.id TaskOutcome.committedOutcome]) } := by
  unfold settleTask
  by_cases hf : t.fast <;> simp [hf, h]

theorem foldl_settleTask_trace (k : Nat) (ts : List TxTask) :
    ∀ s : TxState, s.isCancelled = false →
      (ts.foldl (settleTask k) s).trace = s.trace ++ settleEvtsTrace k ts := by
  induction ts with
  | nil => intro s h; simp [settleEvtsTrace]
  | cons t ts ih =>
    intro s h
    rw [List.foldl_cons, settleTask_uncancelled k s t h, ih]
    · simp [settleEvtsTrace]
    · exact h

theorem foldl_settleTask_isCancelled (k : Nat) (ts : List TxTask) :
    ∀ s : TxState,
      (ts.foldl (settleTask k) s).isCancelled = s.isCancelled := by
  induction ts with
  | nil => intro s; rfl
  | cons t ts ih =>
    intro s
    rw [List.foldl_cons, ih]
    unfold settleTask
    by_cases hf : t.fast <;> by_cases hc : s.isCancelled <;> simp [hf, hc]

theorem foldl_settleTask_running (k : Nat) (ts : List TxTask) :
    ∀ s : TxState,
      (ts.foldl (settleTask k) s).runningTasks = s.runningTasks := by
  induction ts with
  | nil => intro s; rfl
  | cons t ts ih =>
    intro s
    rw [List.foldl_cons, ih]
    unfold settleTask
    by_cases hf : t.fast <;> by_cases hc : s.isCancelled <;> simp [hf, hc]

theorem commitTasksRun_trace (k : Nat) (s : TxState)
    (h : s.isCancelled = false) :
    (commitTasksRun k s).trace = s.trace ++ settleEvtsTrace k s.runningTasks := by
  unfold commitTasksRun
  rw [foldl_settleTask_trace]
  exact h

theorem commitTasksRun_isCancelled (k : Nat) (s : TxState) :
    (commitTasksRun k s).isCancelled = s.isCancelled := by
  unfold commitTasksRun
  rw [foldl_settleTask_isCancelled]

theorem commitTasksRun_runningTasks (k : Nat) (s : TxState) :
    (commitTasksRun k s).runningTasks = [] := by
  unfold commitTasksRun
  rw [foldl_settleTask_running]

theorem processQueue_trace (k : Nat) (s : TxState) (q : List TxTask) :
    (processQueue k s q).trace =
      s.trace ++ (TxEvent.savepoint k ::
        (startEvtsTrace k q ++ [TxEvent.restored k])) := by
  simp only [processQueue]
  rw [foldl_startTask_trace]
  simp

theorem processQueue_running (k : Nat) (s : TxState) (q : List TxTask) :
    (processQueue k s q).runningTasks =
      s.runningTasks ++ q.filter (fun t => t.startsOk) := by
  simp only [processQueue]
  rw [foldl_startTask_running]

theorem processQueue_isCancelled (k : Nat) (s : TxState) (q : List TxTask) :
    (processQueue k s q).isCancelled = s.isCancelled := by
  simp only [processQueue]
  rw [foldl_startTask_isCancelled]

theorem runQueues_trace (rest : List (List TxTask)) :
    ∀ (k : Nat) (s : TxState), s.isCancelled = false → s.runningTasks = [] →
      (runQueues k s rest).trace = s.trace ++ queuesTrace k rest := by
  induction rest with
  | nil =>
    intro k s h hr
    unfold runQueues finishRun
    simp [queuesTrace]
  | cons q rest ih =>
    intro k s h hr
    rw [runQueues]
    have hA1 : (processQueue k { s with taskQueues := rest } q).isCancelled =
        false := by
      rw [processQueue_isCancelled]; exact h
    have hA2 : (processQueue k { s with taskQueues := rest } q).runningTasks =
        q.filter (fun t => t.startsOk) := by
      rw [processQueue_running]
      show s.runningTasks ++ _ = _
      rw [hr]
      simp
    have hA3 : (processQueue k { s with taskQueues := rest } q).trace =
        s.trace ++ (TxEvent.savepoint k ::
          (startEvtsTrace k q ++ [TxEvent.restored k])) := by
      rw [processQueue_trace]
    have hB1 : (commitTasksRun k
        { processQueue k { s with taskQueues := rest } q with
          runningQueueIdx := k }).isCancelled = false := by
      rw [commitTasksRun_isCancelled]
      exact hA1
    have hB3 : (commitTasksRun k
        { processQueue k { s with taskQueues := rest } q with
          runningQueueIdx := k }).trace =
        s.trace ++ (TxEvent.savepoint k ::
          (startEvtsTrace k q ++ [TxEvent.restored k])) ++
        settleEvtsTrace k (q.filter (fun t => t.startsOk)) := by
      rw [commitTasksRun_trace]
      · show (processQueue k { s with taskQueues := rest } q).trace ++
          settleEvtsTrace k (processQueue k
            { s with taskQueues := rest } q).runningTasks = _
        rw [hA3, hA2]
      · exact hA1
    rw [ih _ _ hB1 (commitTasksRun_runningTasks _ _), hB3]
    rw [queuesTrace_cons, queueTrace]
    simp

theorem runTasksDrive_mkInit_trace (queues : List (List TxTask)) :
    (runTasksDrive (TxState.mkInit queues)).trace = queuesTrace 0 queues := by
  unfold runTasksDrive
  have h1 : (TxState.mkInit queues).nextQueue.isEmpty = true := rfl
  rw [h1]
  simp only [if_true]
  have h2 : commitTasksRun (TxState.mkInit queues).runningQueueIdx
      (TxState.mkInit queues) = { TxState.mkInit queues with runningTasks := [] } := by
    unfold commitTasksRun
    rfl
  rw [h2]
  have h3 : ({ TxState.mkInit queues with runningTasks := [] } : TxState).isCancelled = false := rfl
  rw [h3]
  simp only [Bool.false_eq_true, if_false]
  rw [runQueues_trace _ _ _ rfl rfl]
  rfl

/-- C5 counterexample: with a single queue holding one slow task (id 1), the
trace restores the queue savepoint at position 2 while the task's terminal
event only appears at position 3 — the savepoint is resolved while the task is
still running, so the claim as stated is false. -/
theorem savepoint_resolution_cex :
    ¬ savepointResolvedAfterSettle [[⟨1, true, [], [10], false⟩]] := by
  intro h
  have h2 := h 0 1 2 3 (TxEvent.restored 0) (TxEvent.terminal 0 1)
    rfl rfl (Or.inl rfl) rfl
  omega

theorem terminal_before_savepoint (rest : List (List TxTask)) :
    ∀ (k0 k k2 tid : Nat), k0 ≤ k2 → k2 < k →
      eventBefore (queuesTrace k0 rest)
        (fun e => e = TxEvent.terminal k2 tid)
        (fun e => e = TxEvent.savepoint k) := by
  induction rest with
  | nil =>
    intro k0 k k2 tid h1 h2 i j ei ej hi hj hq hp
    exfalso
    have hm := List.getElem?_mem hi
    rw [hq] at hm
    simp [queuesTrace] at hm
  | cons q rest ih =>
    intro k0 k k2 tid h1 h2
    rw [queuesTrace_cons]
    by_cases hk : k2 = k0
    · subst hk
      apply eventBefore_of_split
      · intro e he hQ
        subst hQ
        have := evQueue_of_mem_queueTrace _ _ _ he
        simp [evQueue] at this
        omega
      · intro e he hP
        subst hP
        rw [queuesTrace_eq_segs] at he
        rcases List.mem_append.mp he with he | he
        · obtain ⟨kk, hkk, hev⟩ := evQueue_of_mem_segsTrace _ _ _ he
          simp [evQueue] at hev
          omega
        · simp at he
    · apply eventBefore_of_lift
      · exact ih (k0 + 1) k k2 tid (by omega) h2
      · intro e he hP
        subst hP
        have := evQueue_of_mem_queueTrace _ _ _ he
        simp [evQueue] at this
        omega
      · intro e he hQ
        subst hQ
        have := evQueue_of_mem_queueTrace _ _ _ he
        simp [evQueue] at this
        omega

theorem terminal_before_registry_commit (rest : List (List TxTask)) :
    ∀ (k0 k2 tid : Nat),
      eventBefore (queuesTrace k0 rest)
        (fun e => e = TxEvent.terminal k2 tid)
        (fun e => e = TxEvent.registryCommitted) := by
  intro k0 k2 tid
  rw [queuesTrace_eq_segs]
  apply eventBefore_of_split
  · intro e he hQ
    subst hQ
    obtain ⟨kk, hkk, hev⟩ := evQueue_of_mem_segsTrace _ _ _ he
    simp [evQueue] at hev
  · intro e he hP
    subst hP
    simp at he

theorem started_before_restored (rest : List (List TxTask)) :
    ∀ (k0 k tid : Nat), k0 ≤ k →
      eventBefore (queuesTrace k0 rest)
        (fun e => e = TxEvent.started k tid)
        (fun e => e = TxEvent.restored k) := by
  induction rest with
  | nil =>
    intro k0 k tid hk i j ei ej hi hj hq hp
    exfalso
    have hm := List.getElem?_mem hi
    rw [hq] at hm
    simp [queuesTrace] at hm
  | cons q rest ih =>
    intro k0 k tid hk
    by_cases hkk : k = k0
    · subst hkk
      have hshape : queuesTrace k (q :: rest) =
          (TxEvent.savepoint k :: startEvtsTrace k q) ++
          (TxEvent.restored k ::
            (settleEvtsTrace k (q.filter (fun t => t.startsOk)) ++
              queuesTrace (k + 1) rest)) := by
        rw [queuesTrace_cons, queueTrace]
        simp
      rw [hshape]
      apply eventBefore_of_split
      · intro e he hQ
        subst hQ
        rcases List.mem_cons.mp he with h | h
        · simp at h
        · rcases mem_startEvtsTrace _ _ _ h with ⟨tid2, h2⟩ | ⟨tid2, h2⟩ <;>
            simp at h2
      · intro e he hP
        subst hP
        rcases List.mem_cons.mp he with h | h
        · simp at h
        · rcases List.mem_append.mp h with h | h
          · rcases mem_settleEvtsTrace _ _ _ h with ⟨tid2, h2⟩ | ⟨tid2, o, h2⟩ <;>
              simp at h2
          · rw [queuesTrace_eq_segs] at h
            rcases List.mem_append.mp h with h | h
            · obtain ⟨kk, hkk2, hev⟩ := evQueue_of_mem_segsTrace _ _ _ h
              simp [evQueue] at hev
              omega
            · simp at h
    · rw [queuesTrace_cons]
      apply eventBefore_of_lift
      · exact ih (k0 + 1) k tid (by omega)
      · intro e he hP
        subst hP
        have := evQueue_of_mem_queueTrace _ _ _ he
        simp [evQueue] at this
        omega
      · intro e he hQ
        subst hQ
        have := evQueue_of_mem_queueTrace _ _ _ he
        simp [evQueue] at this
        omega

/-- C5 amended: in a run from a fresh transaction, the trace is exactly the
savepoint / starts / restore / settles segment of each queue in order followed
by the final registry commit; the savepoint of a queue is opened only after
every terminal event of every earlier queue, the final registry commit happens
only after every terminal event, and each queue's restore happens only after
all of its task starts — but, per the counterexample, possibly before its
tasks reach their terminal states. -/
theorem queue_settlement_order (queues : List (List TxTask)) :
    (runTasksDrive (TxState.mkInit queues)).trace = queuesTrace 0 queues ∧
    (∀ k k2 tid : Nat, k2 < k →
      eventBefore (runTasksDrive (TxState.mkInit queues)).trace
        (fun e => e = TxEvent.terminal k2 tid)
        (fun e => e = TxEvent.savepoint k)) ∧
    (∀ k2 tid : Nat,
      eventBefore (runTasksDrive (TxState.mkInit queues)).trace
        (fun e => e = TxEvent.terminal k2 tid)
        (fun e => e = TxEvent.registryCommitted)) ∧
    (∀ k tid : Nat,
      eventBefore (runTasksDrive (TxState.mkInit queues)).trace
        (fun e => e = TxEvent.started k tid)
        (fun e => e = TxEvent.restored k)) := by
  refine ⟨runTasksDrive_mkInit_trace queues, fun k k2 tid hlt => ?_,
    fun k2 tid => ?_, fun k tid => ?_⟩
  · rw [runTasksDrive_mkInit_trace]
    exact terminal_before_savepoint queues 0 k k2 tid (Nat.zero_le k2) hlt
  · rw [runTasksDrive_mkInit_trace]
    exact terminal_before_registry_commit queues 0 k2 tid
  · rw [runTasksDrive_mkInit_trace]
    exact started_before_restored queues 0 k tid (Nat.zero_le k)

/-- Witness for C5 amended at one queue with one slow task: the final registry
commit (trace position 5) comes after the task's terminal event (position 3). -/
theorem queue_settlement_order_witness :
    (runTasksDrive (TxState.mkInit [[⟨1, true, [], [10], false⟩]])).trace =
      queuesTrace 0 [[⟨1, true, [], [10], false⟩]] ∧ (3 : Nat) < 5 :=
  ⟨(queue_settlement_order [[⟨1, true, [], [10], false⟩]]).1,
   (queue_settlement_order [[⟨1, true, [], [10], false⟩]]).2.2.1 0 1 5 3
     TxEvent.registryCommitted (TxEvent.terminal 0 1) rfl rfl rfl rfl⟩

end ReaPack
